import Mathlib

/-!
Verification of the SystemGuardian decision core (src/SystemGuardian.py).

The Python program is shallowly embedded: the isolation queue
(`queue.PriorityQueue` over `heapq`) is modelled entry-for-entry after the
CPython heap algorithm, including the fact that comparing two `(priority,
payload)` tuples with equal priorities falls through to comparing the payload
dicts, which raises `TypeError` unless the dicts are equal; a raised
comparison is modelled as a `Bool` flag while keeping the list mutations that
CPython performs before the comparison runs.  Timestamps are natural-number
seconds; `timedelta(hours=1)` is 3600.  The external repair adapter
(`attempt_repair`) is an oracle parameter giving the outcome of the call.
-/

namespace SystemGuardian

/-- The payload dict put on the isolation queue:
`{'component': ..., 'reason': ..., 'action': ...}` (SystemGuardian.py:212-219,
227-234). -/
structure Req where
  component : String
  reason : String
  action : String
deriving DecidableEq, Repr

instance : Inhabited Req := ⟨⟨"", "", ""⟩⟩

/-- A queue entry `(priority, item)` as passed to `isolation_queue.put`. -/
abbrev Entry := Nat × Req

/-- Python `<` on two `(int, dict)` tuples: lexicographic; equal first
components fall through to the dicts, where `==` succeeds but `<` raises
`TypeError` for unequal dicts. -/
def entryLt (a b : Entry) : Except Unit Bool :=
  if a.1 = b.1 then
    (if a.2 = b.2 then Except.ok false else Except.error ())
  else Except.ok (decide (a.1 < b.1))

/-- CPython `heapq._siftdown(heap, startpos, pos)` with `newitem = heap[pos]`
read at entry.  Returns the heap list as mutated so far and whether a
comparison raised `TypeError`. -/
def siftdown (startpos : Nat) (heap : List Entry) (pos : Nat) (newitem : Entry) :
    List Entry × Bool :=
  if h : startpos < pos then
    let parentpos := (pos - 1) / 2
    let parent := heap.getD parentpos default
    match entryLt newitem parent with
    | Except.error _ => (heap, true)
    | Except.ok true => siftdown startpos (heap.set pos parent) parentpos newitem
    | Except.ok false => (heap.set pos newitem, false)
  else (heap.set pos newitem, false)
termination_by pos
decreasing_by
  exact Nat.lt_of_le_of_lt (Nat.div_le_self (pos - 1) 2)
    (Nat.sub_lt (Nat.lt_of_le_of_lt (Nat.zero_le _) h) Nat.one_pos)

/-- CPython `heapq.heappush`: append, then sift down from the last slot. -/
def heappush (heap : List Entry) (item : Entry) : List Entry × Bool :=
  siftdown 0 (heap ++ [item]) ((heap ++ [item]).length - 1) item

/-- The child-walking loop of CPython `heapq._siftup`.  Returns the heap as
mutated so far, the final `pos`, and whether a comparison raised. -/
def siftupGo (endpos : Nat) (heap : List Entry) (pos : Nat) :
    List Entry × Nat × Bool :=
  let childpos := 2 * pos + 1
  if h : childpos < endpos then
    let rightpos := childpos + 1
    if hr : rightpos < endpos then
      match entryLt (heap.getD childpos default) (heap.getD rightpos default) with
      | Except.error _ => (heap, pos, true)
      | Except.ok b =>
        let childpos2 := if b then childpos else rightpos
        siftupGo endpos (heap.set pos (heap.getD childpos2 default)) childpos2
    else
      siftupGo endpos (heap.set pos (heap.getD childpos default)) childpos
  else (heap, pos, false)
termination_by endpos - pos
decreasing_by
  · simp only [childpos2, childpos] at *
    split <;> omega
  · simp only [childpos] at *
    omega

/-- CPython `heapq._siftup(heap, pos)`: walk children down, place `newitem`,
then `_siftdown` back up; any comparison may raise. -/
def siftup (heap : List Entry) (pos : Nat) : List Entry × Bool :=
  let newitem := heap.getD pos default
  match siftupGo heap.length heap pos with
  | (heap1, _, true) => (heap1, true)
  | (heap1, pos1, false) => siftdown pos (heap1.set pos1 newitem) pos1 newitem

/-- CPython `heapq.heappop`: pop the last element; if the heap is still
non-empty, move it to the root and sift up, returning the old root.  `none`
on an empty heap (the worker never pops an empty queue).  A raised comparison
loses the return item but keeps the mutated list, exactly as CPython does. -/
def heappop (heap : List Entry) : Option (List Entry × Except Unit Entry) :=
  match heap.getLast? with
  | none => none
  | some lastelt =>
    match heap.dropLast with
    | [] => some ([], Except.ok lastelt)
    | h0 :: hrest =>
      match siftup (lastelt :: hrest) 0 with
      | (heap2, false) => some (heap2, Except.ok h0)
      | (heap2, true) => some (heap2, Except.error ())

/-- Drain up to `n` entries from the heap, recording each `get` outcome
(`ok entry`, or `error` when the pop raised and the entry was lost), as the
`process_isolation_queue` worker loop does (SystemGuardian.py:449-472). -/
def drainN : Nat → List Entry → List (Except Unit Entry) × List Entry
  | 0, heap => ([], heap)
  | n + 1, heap =>
    match heappop heap with
    | none => ([], heap)
    | some (heap1, r) =>
      let rest := drainN n heap1
      (r :: rest.1, rest.2)

/-! ## Retry registry (`self.retry_registry`, SystemGuardian.py:186-219) -/

/-- One value of `retry_registry`: `{'count': ..., 'last_attempt': ...}`. -/
structure RetryRec where
  count : Nat
  last_attempt : Nat
deriving DecidableEq, Repr

/-- `retry_registry` as an association list keyed by component id. -/
abbrev Registry := List (String × RetryRec)

def lookupReg (reg : Registry) (component : String) : Option RetryRec :=
  match reg.find? (fun kv => kv.1 = component) with
  | some kv => some kv.2
  | none => none

/-- Python dict assignment `reg[component] = r` (update in place or insert). -/
def setReg (reg : Registry) (component : String) (r : RetryRec) : Registry :=
  match reg with
  | [] => [(component, r)]
  | kv :: rest =>
    if kv.1 = component then (component, r) :: rest
    else kv :: setReg rest component r

/-- Lines 192-203 of handle_warning: create the record if absent, else reset
it to count 0 when the last attempt is more than one hour old. -/
def normalizeReg (reg : Registry) (component : String) (now : Nat) : Registry :=
  match lookupReg reg component with
  | none => setReg reg component ⟨0, now⟩
  | some r =>
    if now - r.last_attempt > 3600 then setReg reg component ⟨0, now⟩ else reg

/-- Count of the (post-normalization) retry record; 0 when absent. -/
def regCount (reg : Registry) (component : String) : Nat :=
  match lookupReg reg component with
  | some r => r.count
  | none => 0

/-- Result of one `handle_warning` call: the new registry, the list of
`isolation_queue.put` arguments issued, and whether `attempt_repair` was
invoked (and, if so, whether it reported success). -/
structure WarnResult where
  registry : Registry
  puts : List Entry
  repairAttempted : Bool
  repaired : Bool
deriving Repr

/-- `handle_warning` (SystemGuardian.py:186-219).  `repairOk` is the outcome
of the external `attempt_repair` adapter call. -/
def handle_warning (reg : Registry) (component message : String) (now : Nat)
    (repairOk : Bool) : WarnResult :=
  let reg1 := normalizeReg reg component now
  let r := (lookupReg reg1 component).getD ⟨0, now⟩
  if r.count < 3 then
    if repairOk then ⟨reg1, [], true, true⟩
    else ⟨setReg reg1 component ⟨r.count + 1, now⟩, [], true, false⟩
  else
    ⟨reg1, [(1, ⟨component, "Max retries exceeded for warnings: " ++ message,
        "isolate"⟩)], false, false⟩

/-! ## Dependency graph (`get_affected_components`, SystemGuardian.py:236-251) -/

/-- `self.component_dependencies`: a JSON object mapping a component id to a
list of component ids, modelled as an association list. -/
abbrev DepMap := List (String × List String)

/-- Python `self.component_dependencies.get(current, [])`. -/
def depsOf (deps : DepMap) (c : String) : List String :=
  match deps.find? (fun kv => kv.1 = c) with
  | some kv => kv.2
  | none => []

/-- A finite superset of every id that can ever enter the BFS work list:
the origin plus every id occurring in a dependency value.  Used only to
justify termination of the source's `while queue:` loop. -/
def univOf (deps : DepMap) (start : String) : List String :=
  start :: (deps.map Prod.snd).flatten

lemma depsOf_subset_univ (deps : DepMap) (start c : String) :
    ∀ d ∈ depsOf deps c, d ∈ univOf deps start := by
  intro d hd
  unfold depsOf at hd
  unfold univOf
  cases hfind : deps.find? (fun kv => kv.1 = c) with
  | none => simp [hfind] at hd
  | some kv =>
    rw [hfind] at hd
    have hkv : kv ∈ deps := List.mem_of_find?_eq_some hfind
    exact List.mem_cons_of_mem _
      (List.mem_flatten.mpr ⟨kv.2, List.mem_map_of_mem Prod.snd hkv, hd⟩)

/-- `List.findIdx` ignores an appended tail whose elements all satisfy the
predicate (the first hit, if any, is in the prefix; otherwise it is the head
of the tail, at index `l₁.length`, which is also `l₁.findIdx p`). -/
lemma findIdx_append_of_tail (p : String → Bool) (l₂ : List String)
    (h : ∀ x ∈ l₂, p x = true) : ∀ l₁ : List String, (l₁ ++ l₂).findIdx p = l₁.findIdx p := by
  intro l₁
  induction l₁ with
  | nil =>
    simp only [List.nil_append, List.findIdx_nil]
    cases l₂ with
    | nil => rfl
    | cons a t => simp [List.findIdx_cons, h a (List.mem_cons_self a t)]
  | cons a t ih =>
    simp only [List.cons_append, List.findIdx_cons]
    cases hp : p a <;> simp [ih]

/-- Removing one satisfying element from the universe strictly shrinks the
filtered count. -/
lemma filter_not_mem_snoc_lt (univ affected : List String) (c : String)
    (hcu : c ∈ univ) (hca : c ∉ affected) :
    (univ.filter (fun x => decide (x ∉ affected ++ [c]))).length <
      (univ.filter (fun x => decide (x ∉ affected))).length := by
  induction univ with
  | nil => cases hcu
  | cons u us ih =>
    by_cases huc : u = c
    · subst huc
      have hmono : (us.filter (fun x => decide (x ∉ affected ++ [u]))).length ≤
          (us.filter (fun x => decide (x ∉ affected))).length := by
        apply List.Sublist.length_le
        apply List.monotone_filter_right
        intro x hx
        simp only [decide_eq_true_eq, List.mem_append] at *
        tauto
      have h1 : (decide (u ∉ affected ++ [u])) = false := by simp
      have h2 : (decide (u ∉ affected)) = true := by simpa using hca
      rw [List.filter_cons, List.filter_cons, h1, h2]
      simp only [Bool.false_eq_true, if_false, if_true, List.length_cons]
      omega
    · have hcu' : c ∈ us := by
        cases List.mem_cons.mp hcu with
        | inl h => exact absurd h.symm huc
        | inr h => exact h
      have hlt := ih hcu'
      have heq : (decide (u ∉ affected ++ [c])) = (decide (u ∉ affected)) := by
        apply decide_eq_decide.mpr
        simp [List.mem_append, huc]
      rw [List.filter_cons, List.filter_cons, heq]
      split_ifs
      · simp only [List.length_cons]
        omega
      · exact hlt

/-- Python `affected.add(current)` on the set `affected`, modelled on the
duplicate-free list: append only if new. -/
def addNew (affected : List String) (c : String) : List String :=
  if c ∈ affected then affected else affected ++ [c]

/-- The `while queue:` loop of `get_affected_components`
(SystemGuardian.py:241-249): pop the head, add it to `affected`, and append
the dependencies not yet in `affected`.  `univ` together with `hq` and `hd`
only carries the finiteness needed for termination; the computation is
exactly the source's. -/
def bfsAux (deps : DepMap) (univ : List String)
    (hd : ∀ c, ∀ d ∈ depsOf deps c, d ∈ univ) :
    (affected queue : List String) → (hq : ∀ x ∈ queue, x ∈ univ) → List String
  | affected, [], _ => affected
  | affected, c :: rest, hq =>
    bfsAux deps univ hd (addNew affected c)
      (rest ++ (depsOf deps c).filter (fun d => decide (d ∉ addNew affected c)))
      (by
        intro x hx
        rcases List.mem_append.mp hx with h1 | h1
        · exact hq x (List.mem_cons_of_mem _ h1)
        · exact hd c x (List.mem_of_mem_filter h1))
termination_by affected queue hq =>
  ((univ.filter (fun x => decide (x ∉ affected))).length,
    queue.findIdx (fun x => decide (x ∉ affected)))
decreasing_by
  by_cases hc : c ∈ affected
  · have haff : addNew affected c = affected := by simp [addNew, hc]
    rw [haff]
    apply Prod.Lex.right
    have happ : ∀ x ∈ (depsOf deps c).filter (fun d => decide (d ∉ affected)),
        (fun x => decide (x ∉ affected)) x = true := by
      intro x hx
      exact (List.mem_filter.mp hx).2
    rw [findIdx_append_of_tail _ _ happ rest]
    rw [List.findIdx_cons]
    have hcf : (decide (c ∉ affected)) = false := by simpa using hc
    rw [hcf]
    simp
  · have haff : addNew affected c = affected ++ [c] := by simp [addNew, hc]
    rw [haff]
    apply Prod.Lex.left
    exact filter_not_mem_snoc_lt univ affected c (hq c (List.mem_cons_self c rest)) hc

/-- `get_affected_components` (SystemGuardian.py:236-251).  The Python
function returns a `set`; this returns the same members as a duplicate-free
list in first-visit order. -/
def get_affected_components (deps : DepMap) (component : String) : List String :=
  bfsAux deps (univOf deps component)
    (fun c => depsOf_subset_univ deps component c) [] [component]
    (by intro x hx; rcases List.mem_singleton.mp hx with rfl; exact List.mem_cons_self _ _)

/-- Transitive reachability over the stored dependency edges, from `start`,
including `start` itself. -/
inductive Reach (deps : DepMap) (start : String) : String → Prop
  | refl : Reach deps start start
  | step {x d : String} : Reach deps start x → d ∈ depsOf deps x → Reach deps start d

/-! ## handle_error (SystemGuardian.py:221-234) -/

/-- An externally visible call of the Decision Engine while handling one
event: an `isolation_queue.put` attempt, or a recovery-point checkpoint.
`handle_error` contains no checkpoint call; the constructor exists so that
the checkpoint-before-isolation property is statable against the trace. -/
inductive GAct where
  | put (e : Entry)
  | checkpoint
deriving DecidableEq, Repr

/-- Result of one `handle_error` call: the isolation heap after the loop, the
trace of calls attempted in order, and whether a `put` raised `TypeError`
(aborting the loop, the exception being caught by `process_events`). -/
structure ErrResult where
  heap : List Entry
  trace : List GAct
  raised : Bool
deriving Repr

/-- The `for comp in affected_components:` loop body of `handle_error`
(SystemGuardian.py:226-234), one `put` per affected component, stopping at
the first put whose heap comparison raises. -/
def handleErrorGo (component message : String) :
    List String → List Entry → List GAct → ErrResult
  | [], heap, tr => ⟨heap, tr, false⟩
  | c :: cs, heap, tr =>
    let e : Entry := (0, ⟨c, "Cascading error from " ++ component ++ ": " ++ message,
      "isolate"⟩)
    let r := heappush heap e
    if r.2 then ⟨r.1, tr ++ [GAct.put e], true⟩
    else handleErrorGo component message cs r.1 (tr ++ [GAct.put e])

/-- `handle_error` (SystemGuardian.py:221-234): compute the affected set and
enqueue one priority-0 isolation request per member. -/
def handle_error (deps : DepMap) (component message : String)
    (heap : List Entry) : ErrResult :=
  handleErrorGo component message (get_affected_components deps component) heap []

/-! ## Classifier (SystemGuardian.py:144-167) -/

/-- Python `needle in hay` at a fixed offset: `needle` is a prefix of `hay`. -/
def startsList (needle hay : List Char) : Bool :=
  match needle, hay with
  | [], _ => true
  | _ :: _, [] => false
  | a :: n, b :: h => a == b && startsList n h

/-- Python substring containment `needle in hay`. -/
def containsSub (needle hay : List Char) : Bool :=
  match hay with
  | [] => needle.isEmpty
  | _ :: h => startsList needle hay || containsSub needle h

/-- Python `sub in message` on strings. -/
def strHas (message sub : String) : Bool :=
  containsSub sub.data message.data

/-- Python `sub in message.lower()` (ASCII lowering, as in the event
messages the patterns target). -/
def strHasLower (message sub : String) : Bool :=
  containsSub sub.data (message.data.map Char.toLower)

/-- Severity of a raw event (`event.EventType` restricted to the two types
`process_events` dispatches on, SystemGuardian.py:176-179). -/
inductive EvType where
  | warning
  | error
deriving DecidableEq, Repr

/-- `classify_event` (SystemGuardian.py:158-167). -/
def classify_event (etype : EvType) (message : String) : String :=
  match etype with
  | EvType.error =>
    if strHas message "DCOM" || strHas message "CLSID" then "critical_com"
    else if strHasLower message "driver" then "critical_driver"
    else "system_error"
  | EvType.warning =>
    if strHasLower message "service" then "service_warning" else "hardware_warning"

/-- Case-insensitive literal match: consume `kw` from the head of `s`,
returning the rest (`re.IGNORECASE` on the keyword letters). -/
def ciStarts : List Char → List Char → Option (List Char)
  | [], s => some s
  | _ :: _, [] => none
  | k :: ks, c :: cs => if k.toLower = c.toLower then ciStarts ks cs else none

/-- Python regex `\s` (the whitespace class, ASCII part). -/
def isWs (c : Char) : Bool :=
  c = ' ' || c = '\t' || c = '\n' || c = '\r' || c = '\x0b' || c = '\x0c'

/-- `\s+` followed by a character that is not whitespace: greedy consumption
of at least one whitespace character. -/
def spaces1 (s : List Char) : Option (List Char) :=
  match s with
  | [] => none
  | c :: cs => if isWs c then some (cs.dropWhile isWs) else none

/-- The lazy group `(.+?)\"` after the opening quote: the shortest non-empty
run of non-newline characters followed by a closing `"`. -/
def capQuoteGo (acc : List Char) : List Char → Option (List Char)
  | [] => none
  | c :: cs =>
    if c = '"' then some acc.reverse
    else if c = '\n' then none
    else capQuoteGo (c :: acc) cs

/-- Capture of `(.+?)` between the quotes of `\"(.+?)\"`. -/
def capQuote (s : List Char) : Option (List Char) :=
  match s with
  | [] => none
  | c :: cs => if c = '\n' then none else capQuoteGo [c] cs

/-- One attempt of `kw\s+(?:\"(.+?)\")` anchored at the head of `s`. -/
def kwMatchAt (kw s : List Char) : Option (List Char) :=
  match ciStarts kw s with
  | none => none
  | some r1 =>
    match spaces1 r1 with
    | none => none
    | some r2 =>
      match r2 with
      | '"' :: r3 => capQuote r3
      | _ => none

/-- `re.search` for `kw\s+(?:\"(.+?)\")`: leftmost starting position wins. -/
def kwSearch (kw : List Char) : List Char → Option (List Char)
  | [] => none
  | s@(_ :: rest) =>
    match kwMatchAt kw s with
    | some cap => some cap
    | none => kwSearch kw rest

/-- The character class `[A-F0-9-]` under `re.IGNORECASE`. -/
def hexDash (c : Char) : Bool :=
  ('A' ≤ c && c ≤ 'F') || ('a' ≤ c && c ≤ 'f') || ('0' ≤ c && c ≤ '9') || c = '-'

/-- One attempt of `CLSID\s+\x7b([A-F0-9-]+)\x7d` anchored at the head:
keyword, whitespace, an opening brace, a maximal non-empty run of class
characters, a closing brace. -/
def clsidMatchAt (s : List Char) : Option (List Char) :=
  match ciStarts ("CLSID".data) s with
  | none => none
  | some r1 =>
    match spaces1 r1 with
    | none => none
    | some r2 =>
      match r2 with
      | b :: r3 =>
        if b = Char.ofNat 123 then
          let cap := r3.takeWhile hexDash
          match r3.dropWhile hexDash with
          | d :: _ => if cap.isEmpty then none
              else if d = Char.ofNat 125 then some cap else none
          | [] => none
        else none
      | [] => none

/-- `re.search` for the CLSID pattern. -/
def clsidSearch : List Char → Option (List Char)
  | [] => none
  | s@(_ :: rest) =>
    match clsidMatchAt s with
    | some cap => some cap
    | none => clsidSearch rest

/-- `extract_component` (SystemGuardian.py:144-156): ordered pattern rules,
first match wins, fallback `"unknown"`. -/
def extract_component (message : String) : String :=
  match kwSearch ("service".data) message.data with
  | some cap => "service:" ++ String.mk cap
  | none =>
    match kwSearch ("driver".data) message.data with
    | some cap => "driver:" ++ String.mk cap
    | none =>
      match clsidSearch message.data with
      | some cap => "dcom:" ++ String.mk cap
      | none => "unknown"

/-! ## Isolation worker dispatch (SystemGuardian.py:449-472) -/

/-- The external adapter invoked for one drained request. -/
inductive AdapterCall where
  | svc (name : String)
  | drv (name : String)
  | dcomCls (name : String)
deriving DecidableEq, Repr

/-- Python `component.split(':')[1]`. -/
def splitColon1 (s : String) : String :=
  (s.splitOn ":").getD 1 ""

/-- Effect of the worker body on one dequeued item
(SystemGuardian.py:453-467): dispatch on the component-kind marker only,
then notify.  The item's `action` field is never read. -/
structure IsoStep where
  call : Option AdapterCall
  notified : Bool
deriving DecidableEq, Repr

def process_isolation_item (item : Req) : IsoStep :=
  { call :=
      if item.component.startsWith "service:" then
        some (AdapterCall.svc (splitColon1 item.component))
      else if item.component.startsWith "driver:" then
        some (AdapterCall.drv (splitColon1 item.component))
      else if item.component.startsWith "dcom:" then
        some (AdapterCall.dcomCls (splitColon1 item.component))
      else none,
    notified := true }

/-! ## Theorems -/

/-- Appending put actions never adds a checkpoint: the loop of
`handle_error` records only `isolation_queue.put` calls. -/
lemma handleErrorGo_checkpoint_count (component message : String) :
    ∀ (cs : List String) (heap : List Entry) (tr : List GAct),
      (handleErrorGo component message cs heap tr).trace.countP
          (fun a => decide (a = GAct.checkpoint)) =
        tr.countP (fun a => decide (a = GAct.checkpoint)) := by
  intro cs
  induction cs with
  | nil => intro heap tr; rfl
  | cons c cs ih =>
    intro heap tr
    simp only [handleErrorGo]
    split
    · simp [List.countP_append]
    · rw [ih]
      simp [List.countP_append]

/-- C1 (amended): `handle_error` records no recovery-point checkpoint at
all: its call trace consists of `isolation_queue.put` attempts only, for
every dependency configuration, component, message and queue state. -/
theorem handle_error_never_checkpoints (deps : DepMap) (component message : String)
    (heap : List Entry) :
    (handle_error deps component message heap).trace.countP
      (fun a => decide (a = GAct.checkpoint)) = 0 := by
  unfold handle_error
  rw [handleErrorGo_checkpoint_count]
  rfl

/-- C1 (counterexample): processing an error event on component service:X
with no dependencies records zero recovery-point checkpoints although an
isolation request is enqueued, refuting that exactly one checkpoint is
recorded before the isolation requests. -/
theorem handle_error_checkpoint_claim_false :
    (handle_error [] ("service:X") ("boom") []).trace.countP
        (fun a => decide (a = GAct.checkpoint)) = 0 ∧
      (handle_error [] ("service:X") ("boom") []).trace ≠ [] := by
  constructor <;>
    simp [handle_error, get_affected_components, bfsAux, depsOf, addNew,
      handleErrorGo, heappush, siftdown, entryLt]

/-- C10: the isolation worker's effect on a dequeued request does not depend
on the request's `action` field: `process_isolation_queue` dispatches on the
component-kind marker only and never reads `item['action']`, so a request
enqueued with action `reinstall` is executed exactly like one with action
`isolate`. -/
theorem process_isolation_item_ignores_action (component reason a1 a2 : String) :
    process_isolation_item ⟨component, reason, a1⟩ =
      process_isolation_item ⟨component, reason, a2⟩ := rfl

/-- C9 (counterexample): an unrecognized warning message is classified as
`hardware_warning`, not as category `unknown`; `classify_event` never
produces `"unknown"`. -/
theorem classify_event_unknown_claim_false :
    classify_event EvType.warning "" = "hardware_warning" ∧
      classify_event EvType.warning "" ≠ "unknown" ∧
      extract_component "" = "unknown" := by
  refine ⟨rfl, ?_, rfl⟩
  decide

/-- C9 (amended): classification is total and never fails: the category is
always one of the five fixed strings (never `unknown`), and a message
matching none of the three component-extraction patterns yields component id
`"unknown"`. -/
theorem classify_total_with_fallbacks (etype : EvType) (message : String) :
    classify_event etype message ∈
        (["critical_com", "critical_driver", "system_error", "service_warning",
          "hardware_warning"] : List String) ∧
      (kwSearch ("service".data) message.data = none →
        kwSearch ("driver".data) message.data = none →
        clsidSearch message.data = none →
        extract_component message = "unknown") := by
  constructor
  · cases etype <;> unfold classify_event <;> split_ifs <;> simp
  · intro h1 h2 h3
    unfold extract_component
    rw [h1, h2, h3]

/-- Witness for `classify_total_with_fallbacks` at the empty message. -/
theorem classify_total_with_fallbacks_witness :
    extract_component "" = "unknown" :=
  (classify_total_with_fallbacks EvType.warning "").2 rfl rfl rfl

/-- C2 (counterexample): enqueuing the same `(componentId, action)` request
twice before either is drained leaves two entries in the isolation queue, not
one: `PriorityQueue.put` performs no deduplication. -/
theorem isolation_queue_duplicate_entries :
    ((heappush ((heappush []
          ((1 : Nat), ⟨"service:X", "w", "isolate"⟩)).1)
          ((1 : Nat), ⟨"service:X", "w", "isolate"⟩)).1.length = 2) ∧
      ((heappush ((heappush []
          ((1 : Nat), ⟨"service:X", "w", "isolate"⟩)).1)
          ((1 : Nat), ⟨"service:X", "w", "isolate"⟩)).1.countP
        (fun e => decide (e.2.component = "service:X" ∧ e.2.action = "isolate")) = 2) := by
  constructor <;> simp [heappush, siftdown, entryLt]

/-- C2 (amended): enqueue never deduplicates.  Two equal payloads at the same
priority both stay in the queue; a distinct payload at the same priority
raises `TypeError` when the heap sift compares the two dicts — and the raising
entry is still appended to the heap list. -/
theorem isolation_queue_no_dedup (p : Nat) (r r2 : Req) :
    (heappush ((heappush [] (p, r)).1) (p, r) = ([(p, r), (p, r)], false)) ∧
      (r ≠ r2 → heappush ((heappush [] (p, r)).1) (p, r2) =
        ([(p, r), (p, r2)], true)) := by
  constructor
  · simp [heappush, siftdown, entryLt]
  · intro hne
    have hne2 : r2 ≠ r := Ne.symm hne
    simp [heappush, siftdown, entryLt, hne2]

/-- Witness for `isolation_queue_no_dedup` at two concrete requests. -/
theorem isolation_queue_no_dedup_witness :
    heappush ((heappush [] ((0 : Nat), ⟨"service:A", "a", "isolate"⟩)).1)
        ((0 : Nat), ⟨"service:B", "b", "isolate"⟩) =
      ([((0 : Nat), ⟨"service:A", "a", "isolate"⟩),
        ((0 : Nat), ⟨"service:B", "b", "isolate"⟩)], true) :=
  (isolation_queue_no_dedup 0 ⟨"service:A", "a", "isolate"⟩
    ⟨"service:B", "b", "isolate"⟩).2 (by decide)

/-- C8 (counterexample): three equal-priority requests enqueued in order
A, B, C are not drained in FIFO order: the first `get` raises `TypeError`
inside `heappop` and the earliest request A is lost from the heap, so the
drain sequence is error, B, C and A is never delivered. -/
theorem isolation_queue_fifo_claim_false :
    (drainN 3 ((heappush ((heappush ((heappush []
          ((0 : Nat), ⟨"service:A", "a", "isolate"⟩)).1)
          ((0 : Nat), ⟨"service:B", "b", "isolate"⟩)).1)
          ((0 : Nat), ⟨"service:C", "c", "isolate"⟩)).1) =
        ([Except.error (), Except.ok ((0 : Nat), ⟨"service:B", "b", "isolate"⟩),
          Except.ok ((0 : Nat), ⟨"service:C", "c", "isolate"⟩)], [])) ∧
      Except.ok ((0 : Nat), (⟨"service:A", "a", "isolate"⟩ : Req)) ∉
        (drainN 3 ((heappush ((heappush ((heappush []
          ((0 : Nat), ⟨"service:A", "a", "isolate"⟩)).1)
          ((0 : Nat), ⟨"service:B", "b", "isolate"⟩)).1)
          ((0 : Nat), ⟨"service:C", "c", "isolate"⟩)).1)).1 := by
  constructor
  · simp [drainN, heappush, heappop, siftup, siftupGo, siftdown, entryLt]
  · simp [drainN, heappush, heappop, siftup, siftupGo, siftdown, entryLt]

/-- C8 (amended): across distinct priorities the queue does drain in
ascending priority order — a priority-0 and a priority-1 request drain
lowest-priority-number first whichever was enqueued first; FIFO within an
equal priority tier is not guaranteed (see the counterexample: the enqueue
comparison raises and can lose the earliest entry). -/
theorem isolation_queue_priority_order (r1 r2 : Req) :
    (drainN 2 ((heappush ((heappush [] ((1 : Nat), r1)).1) ((0 : Nat), r2)).1) =
        ([Except.ok ((0 : Nat), r2), Except.ok ((1 : Nat), r1)], [])) ∧
      (drainN 2 ((heappush ((heappush [] ((0 : Nat), r2)).1) ((1 : Nat), r1)).1) =
        ([Except.ok ((0 : Nat), r2), Except.ok ((1 : Nat), r1)], [])) := by
  constructor <;>
    simp [drainN, heappush, heappop, siftup, siftupGo, siftdown, entryLt]

/-- Dict assignment then lookup at the same key. -/
lemma lookupReg_setReg_self (reg : Registry) (component : String) (r : RetryRec) :
    lookupReg (setReg reg component r) component = some r := by
  induction reg with
  | nil => simp [setReg, lookupReg, List.find?]
  | cons kv rest ih =>
    by_cases hk : kv.1 = component
    · simp [setReg, hk, lookupReg, List.find?]
    · simp only [setReg, if_neg hk]
      simpa [lookupReg, List.find?, hk] using ih

/-- The retry count read by `handle_warning` is the count of the
post-normalization record (0 when the record was just created). -/
lemma regCount_eq_getD (reg : Registry) (component : String) (now : Nat) :
    regCount reg component = ((lookupReg reg component).getD ⟨0, now⟩).count := by
  unfold regCount
  cases lookupReg reg component <;> rfl

/-- C3: a warning whose post-window-check attempt count is below 3 invokes a
repair attempt and enqueues nothing; a warning arriving with the in-window
count already at 3 (the 4th in the window) is refused: no repair is invoked
and exactly one priority-1 isolation request with the max-retries reason is
enqueued. -/
theorem handle_warning_retry_policy (reg : Registry) (component message : String)
    (now : Nat) (repairOk : Bool) :
    (regCount (normalizeReg reg component now) component < 3 →
      (handle_warning reg component message now repairOk).repairAttempted = true ∧
      (handle_warning reg component message now repairOk).puts = []) ∧
    (3 ≤ regCount (normalizeReg reg component now) component →
      (handle_warning reg component message now repairOk).repairAttempted = false ∧
      (handle_warning reg component message now repairOk).puts =
        [((1 : Nat), ⟨component, "Max retries exceeded for warnings: " ++ message,
          "isolate"⟩)]) := by
  constructor
  · intro hlt
    rw [regCount_eq_getD _ _ now] at hlt
    simp only [handle_warning]
    rw [if_pos hlt]
    cases repairOk <;> exact ⟨rfl, rfl⟩
  · intro hge
    rw [regCount_eq_getD _ _ now] at hge
    simp only [handle_warning]
    rw [if_neg (by omega)]
    exact ⟨rfl, rfl⟩

/-- Witness for `handle_warning_retry_policy`: a fresh component gets a
repair attempt; a component with 3 in-window attempts gets the priority-1
isolation request instead. -/
theorem handle_warning_retry_policy_witness :
    ((handle_warning [] ("service:X") ("m") 0 true).repairAttempted = true ∧
      (handle_warning [] ("service:X") ("m") 0 true).puts = []) ∧
    ((handle_warning [(("service:X"), ⟨3, 0⟩)] ("service:X") ("m4") 10
        false).repairAttempted = false ∧
      (handle_warning [(("service:X"), ⟨3, 0⟩)] ("service:X") ("m4") 10 false).puts =
        [((1 : Nat), ⟨"service:X", "Max retries exceeded for warnings: m4",
          "isolate"⟩)]) :=
  ⟨(handle_warning_retry_policy [] ("service:X") ("m") 0 true).1 (by decide),
   (handle_warning_retry_policy [(("service:X"), ⟨3, 0⟩)] ("service:X") ("m4") 10
      false).2 (by decide)⟩

/-- C4 (counterexample): failed repair attempts at t=0s, t=3000s, t=3700s.
At t=3700 more than one hour has elapsed since the first attempt in the
window (t=0), so the claim demands a reset and a count of 1; the code only
compares against the most recent attempt (t=3000) and reaches count 3. -/
theorem retry_window_not_from_first_attempt :
    (3700 : Nat) - 0 > 3600 ∧
      regCount (handle_warning (handle_warning (handle_warning []
          ("service:X") ("m1") 0 false).registry
          ("service:X") ("m2") 3000 false).registry
          ("service:X") ("m3") 3700 false).registry ("service:X") = 3 ∧
      regCount (handle_warning (handle_warning (handle_warning []
          ("service:X") ("m1") 0 false).registry
          ("service:X") ("m2") 3000 false).registry
          ("service:X") ("m3") 3700 false).registry ("service:X") ≠ 1 := by
  decide

/-- C4 (amended): the retry window is measured from the most recent recorded
attempt, not the first: on a failed-warning event the record resets to behave
as attempt 1 exactly when more than one hour has passed since `last_attempt`,
and otherwise the count is kept (incremented below 3), whatever the age of
the first attempt. -/
theorem handle_warning_window_from_last_attempt (reg : Registry)
    (component message : String) (now : Nat) (r : RetryRec)
    (h : lookupReg reg component = some r) :
    (now - r.last_attempt > 3600 →
      regCount (handle_warning reg component message now false).registry component
        = 1) ∧
    (¬(now - r.last_attempt > 3600) →
      regCount (handle_warning reg component message now false).registry component
        = (if r.count < 3 then r.count + 1 else r.count)) := by
  constructor
  · intro hstale
    simp [handle_warning, normalizeReg, h, hstale, regCount, lookupReg_setReg_self]
  · intro hfresh
    by_cases hc : r.count < 3
    · rw [if_pos hc]
      simp [handle_warning, normalizeReg, h, hfresh, hc, regCount,
        lookupReg_setReg_self]
    · rw [if_neg hc]
      simp [handle_warning, normalizeReg, h, hfresh, hc, regCount]

/-- Witness for `handle_warning_window_from_last_attempt`: count 2 with last
attempt at t=100 resets at t=4000 (count 1) but is kept at t=200 (count 3). -/
theorem handle_warning_window_witness :
    (regCount (handle_warning [(("service:X"), ⟨2, 100⟩)]
        ("service:X") ("m") 4000 false).registry ("service:X") = 1) ∧
      (regCount (handle_warning [(("service:X"), ⟨2, 100⟩)]
        ("service:X") ("m") 200 false).registry ("service:X") = 3) :=
  ⟨(handle_warning_window_from_last_attempt [(("service:X"), ⟨2, 100⟩)]
      ("service:X") ("m") 4000 ⟨2, 100⟩ (by decide)).1 (by decide),
   by
    have h := (handle_warning_window_from_last_attempt [(("service:X"), ⟨2, 100⟩)]
      ("service:X") ("m") 200 ⟨2, 100⟩ (by decide)).2 (by decide)
    simpa using h⟩

/-- C5 (counterexample): two failed attempts (t=0, t=10) then a successful
repair at t=20: the retry record still shows count 2, not a cleared record,
so the next warning is treated as attempt 3 rather than attempt 1. -/
theorem successful_repair_does_not_clear :
    regCount (handle_warning (handle_warning (handle_warning []
        ("service:X") ("m1") 0 false).registry
        ("service:X") ("m2") 10 false).registry
        ("service:X") ("m3") 20 true).registry ("service:X") = 2 ∧
      regCount (handle_warning (handle_warning (handle_warning []
        ("service:X") ("m1") 0 false).registry
        ("service:X") ("m2") 10 false).registry
        ("service:X") ("m3") 20 true).registry ("service:X") ≠ 0 := by
  decide

/-- C5 (amended): a successful repair leaves the retry registry exactly as
the window-check step left it: the success branch returns without clearing
or updating the record, so the attempt count persists. -/
theorem handle_warning_success_keeps_record (reg : Registry)
    (component message : String) (now : Nat)
    (h : regCount (normalizeReg reg component now) component < 3) :
    (handle_warning reg component message now true).registry =
      normalizeReg reg component now := by
  rw [regCount_eq_getD _ _ now] at h
  simp [handle_warning, if_pos h]

/-- Witness for `handle_warning_success_keeps_record` at a record with two
failed attempts. -/
theorem handle_warning_success_keeps_record_witness :
    (handle_warning [(("service:X"), ⟨2, 100⟩)] ("service:X") ("m") 200
        true).registry =
      normalizeReg [(("service:X"), ⟨2, 100⟩)] ("service:X") 200 :=
  handle_warning_success_keeps_record [(("service:X"), ⟨2, 100⟩)]
    ("service:X") ("m") 200 (by decide)

lemma mem_addNew {affected : List String} {c x : String} :
    x ∈ addNew affected c ↔ x ∈ affected ∨ x = c := by
  unfold addNew
  split_ifs with hc
  · constructor
    · exact Or.inl
    · rintro (h | rfl)
      · exact h
      · exact hc
  · simp [List.mem_append]

lemma self_mem_addNew (affected : List String) (c : String) : c ∈ addNew affected c :=
  mem_addNew.mpr (Or.inr rfl)

lemma nodup_addNew {affected : List String} (c : String) (h : affected.Nodup) :
    (addNew affected c).Nodup := by
  unfold addNew
  split_ifs with hc
  · exact h
  · have h2 : affected.Nodup ∧ c ∉ affected := ⟨h, hc⟩
    simpa [List.nodup_append] using h2

/-- A set that contains `start` and is closed under the stored dependency
edges contains everything reachable from `start`. -/
lemma reach_of_closed (deps : DepMap) (start : String) (S : List String)
    (hstart : start ∈ S) (hclosed : ∀ x ∈ S, ∀ d ∈ depsOf deps x, d ∈ S) :
    ∀ x, Reach deps start x → x ∈ S := by
  intro x hx
  induction hx with
  | refl => exact hstart
  | step hr hd ih => exact hclosed _ ih _ hd

/-- Invariant-carrying specification of the BFS loop: from a state whose
`affected` set is duplicate-free and reachable-sound, whose queue is
reachable-sound, whose processed nodes have all their dependencies in
`affected ∪ queue`, and which covers `start`, the loop returns a
duplicate-free list that contains the old `affected`, contains only
reachable nodes, is closed under the dependency edges, and contains
`start`. -/
lemma bfsAux_spec (deps : DepMap) (univ : List String)
    (hd : ∀ c, ∀ d ∈ depsOf deps c, d ∈ univ) (start : String) :
    ∀ (affected queue : List String) (hq : ∀ x ∈ queue, x ∈ univ),
      affected.Nodup →
      (∀ x ∈ affected, Reach deps start x) →
      (∀ x ∈ queue, Reach deps start x) →
      (∀ x ∈ affected, ∀ d ∈ depsOf deps x, d ∈ affected ∨ d ∈ queue) →
      (start ∈ affected ∨ start ∈ queue) →
      (bfsAux deps univ hd affected queue hq).Nodup ∧
      (∀ x ∈ affected, x ∈ bfsAux deps univ hd affected queue hq) ∧
      (∀ x ∈ bfsAux deps univ hd affected queue hq, Reach deps start x) ∧
      (∀ x ∈ bfsAux deps univ hd affected queue hq, ∀ d ∈ depsOf deps x,
        d ∈ bfsAux deps univ hd affected queue hq) ∧
      start ∈ bfsAux deps univ hd affected queue hq := by
  intro affected queue hq
  induction affected, queue, hq using bfsAux.induct deps univ hd with
  | case1 affected hq1 _ =>
    intro hnd hsA _ hJ hs
    simp only [bfsAux]
    refine ⟨hnd, fun x h => h, hsA, ?_, ?_⟩
    · intro x hx d hdx
      rcases hJ x hx d hdx with h | h
      · exact h
      · cases h
    · rcases hs with h | h
      · exact h
      · cases h
  | case2 affected c rest hq1 _ ih =>
    intro hnd hsA hsQ hJ hs
    have hreachc : Reach deps start c := hsQ c (List.mem_cons_self c rest)
    simp only [bfsAux]
    have IH := ih (nodup_addNew c hnd)
      (by
        intro x hx
        rcases mem_addNew.mp hx with h | rfl
        · exact hsA x h
        · exact hreachc)
      (by
        intro x hx
        rcases List.mem_append.mp hx with h | h
        · exact hsQ x (List.mem_cons_of_mem _ h)
        · exact Reach.step hreachc (List.mem_of_mem_filter h))
      (by
        intro x hx d hdx
        rcases mem_addNew.mp hx with h | rfl
        · rcases hJ x h d hdx with h2 | h2
          · exact Or.inl (mem_addNew.mpr (Or.inl h2))
          · rcases List.mem_cons.mp h2 with rfl | h3
            · exact Or.inl (self_mem_addNew affected d)
            · exact Or.inr (List.mem_append.mpr (Or.inl h3))
        · by_cases hmem : d ∈ addNew affected x
          · exact Or.inl hmem
          · refine Or.inr (List.mem_append.mpr (Or.inr ?_))
            exact List.mem_filter.mpr ⟨hdx, by simpa using hmem⟩)
      (by
        rcases hs with h | h
        · exact Or.inl (mem_addNew.mpr (Or.inl h))
        · rcases List.mem_cons.mp h with rfl | h2
          · exact Or.inl (self_mem_addNew affected start)
          · exact Or.inr (List.mem_append.mpr (Or.inl h2)))
    refine ⟨IH.1, ?_, IH.2.2.1, IH.2.2.2.1, IH.2.2.2.2⟩
    intro x hx
    exact IH.2.1 x (mem_addNew.mpr (Or.inl hx))

/-- The affected-components list is duplicate-free: each member appears
exactly once (it models the Python `set`). -/
lemma get_affected_components_nodup (deps : DepMap) (component : String) :
    (get_affected_components deps component).Nodup :=
  (bfsAux_spec deps (univOf deps component)
    (fun c => depsOf_subset_univ deps component c) component [] [component] _
    List.nodup_nil (by intro x hx; cases hx)
    (by intro x hx; rcases List.mem_singleton.mp hx with rfl; exact Reach.refl)
    (by intro x hx; cases hx) (Or.inr (List.mem_singleton.mpr rfl))).1

/-- C7: for every dependency configuration and origin the Python BFS
terminates (the Lean translation is a total function, accepted by
well-founded recursion on the very loop of the source) and computes exactly
the set of component ids transitively reachable over the stored edges,
always including the origin itself. -/
theorem get_affected_components_spec (deps : DepMap) (component x : String) :
    (x ∈ get_affected_components deps component ↔ Reach deps component x) ∧
      component ∈ get_affected_components deps component := by
  have h := bfsAux_spec deps (univOf deps component)
    (fun c => depsOf_subset_univ deps component c) component [] [component]
    (by intro y hy; rcases List.mem_singleton.mp hy with rfl
        exact List.mem_cons_self _ _)
    List.nodup_nil (by intro y hy; cases hy)
    (by intro y hy; rcases List.mem_singleton.mp hy with rfl; exact Reach.refl)
    (by intro y hy; cases hy) (Or.inr (List.mem_singleton.mpr rfl))
  refine ⟨⟨fun hx => h.2.2.1 x hx, fun hr => ?_⟩, h.2.2.2.2⟩
  exact reach_of_closed deps component _ h.2.2.2.2 h.2.2.2.1 x hr

/-- C6 (the code evaluated at the failing input): an error event on
service:A whose affected set is computed as the three components service:A,
service:B, service:C yields a raised `TypeError` on the second
`isolation_queue.put` (the heap sift compares the two unequal payload dicts
at equal priority 0), the loop aborts, and no request for service:C is ever
enqueued — the queue ends with entries for service:A and service:B only,
refuting one-request-per-affected-member. -/
theorem handle_error_typeerror_drops_requests :
    (handle_error [(("service:A"), ["service:B", "service:C"])]
        ("service:A") ("boom") []).raised = true ∧
      ("service:C") ∈ get_affected_components
        [(("service:A"), ["service:B", "service:C"])] ("service:A") ∧
      (handle_error [(("service:A"), ["service:B", "service:C"])]
          ("service:A") ("boom") []).heap.map (fun e => e.2.component) =
        ["service:A", "service:B"] ∧
      (handle_error [(("service:A"), ["service:B", "service:C"])]
          ("service:A") ("boom") []).heap.countP
        (fun e => decide (e.2.component = "service:C")) = 0 := by
  refine ⟨?_, ?_, ?_, ?_⟩ <;>
    simp [handle_error, handleErrorGo, get_affected_components, bfsAux, depsOf,
      addNew, univOf, heappush, siftdown, entryLt]

end SystemGuardian
